import Mathlib

set_option synthInstance.maxHeartbeats 1000000

/-!
Verification development for the `r3sin_pr1nt` browser dashboard
(`static/js/main.js` plus the relay-controller plugin script appended to it).

The JavaScript is shallowly embedded: each `async` handler becomes a pure
function from the outcome of its `fetch` call to the effects it performs
(HTTP requests issued, `showAlert` toasts, `addConsoleMessage` lines,
whether an exception escapes the handler uncaught).  JS `undefined`/missing
string fields are `Option String` (`none`), and the JS `||` fallback on
strings (which also treats `""` as falsy) is `jsOr`.  Numbers that are JS
floats are modelled as exact rationals `ℚ`.
-/

/-- Outcome of a JS `fetch` + `response.json()`: either the promise rejects
with a network/transport error, or a decoded JSON body is available. -/
inductive FetchOutcome (α : Type) where
  | netError (msg : String)
  | ok (resp : α)
deriving DecidableEq

/-- JS `a || b` specialised to possibly-missing strings: `undefined` and the
empty string are falsy. -/
def jsOr (a : Option String) (b : Option String) : Option String :=
  match a with
  | some s => if s = "" then b else some s
  | none => b

/-- Generic JSON body `{ success, message?, error? }` used by the printer
action endpoints (`/api/connect`, `/api/pause`, `/api/print_file`, the
plugin enable/disable endpoints, `/api/config/reset`, ...). -/
structure ApiResp where
  success : Bool
  message : Option String
  error : Option String
deriving DecidableEq

/-- The HTTP requests the embedded handlers can issue. -/
inductive ApiCall where
  | connect
  | disconnect
  | pause
  | resume
  | stop
  | homeZ
  | moveZ (distance : ℚ)
  | printFileReq (filename : String)
  | selectFileReq (filename : String)
  | deleteFileReq (filename : String)
  | toggleRelayReq (relayId : String)
  | setRelayReq (relayId : String) (turnOn : Bool)
  | pluginAction (pluginName action : String)
deriving DecidableEq

/-- Effects of one completed handler invocation.  `toasts` are the
`showAlert(message, type)` calls (message `none` = JS `undefined`);
`consoleMsgs` are the `addConsoleMessage(message, type)` calls;
`uncaught = true` means the async function's promise rejects (the
exception escapes the handler). -/
structure OpResult where
  calls : List ApiCall
  toasts : List (Option String × String)
  consoleMsgs : List (Option String × String)
  uncaught : Bool
deriving DecidableEq

/-- `connectPrinter` from `main.js`: logs, `fetch('/api/connect')` with no
try/catch, then one toast and one console line built from the response. -/
def connectPrinter (o : FetchOutcome ApiResp) : OpResult :=
  match o with
  | .netError _ =>
      { calls := [.connect]
        toasts := []
        consoleMsgs := [(some "Attempting to connect to printer...", "")]
        uncaught := true }
  | .ok r =>
      let message := jsOr r.message (if r.success then some "Connected" else r.error)
      let ty := if r.success then "success" else "error"
      { calls := [.connect]
        toasts := [(message, ty)]
        consoleMsgs := [(some "Attempting to connect to printer...", ""), (message, ty)]
        uncaught := false }

/-- `pausePrint` from `main.js`: same unprotected fetch shape as
`connectPrinter`, against `/api/pause`. -/
def pausePrint (o : FetchOutcome ApiResp) : OpResult :=
  match o with
  | .netError _ =>
      { calls := [.pause]
        toasts := []
        consoleMsgs := [(some "Pausing print...", "")]
        uncaught := true }
  | .ok r =>
      let ty := if r.success then "success" else "error"
      { calls := [.pause]
        toasts := [(r.message, ty)]
        consoleMsgs := [(some "Pausing print...", ""), (r.message, ty)]
        uncaught := false }

/-- `printFile(filename)` from `main.js`: unprotected POST to
`/api/print_file`, then a toast and console line with `result.message`. -/
def printFile (filename : String) (o : FetchOutcome ApiResp) : OpResult :=
  match o with
  | .netError _ =>
      { calls := [.printFileReq filename]
        toasts := []
        consoleMsgs := [(some ("Starting print: " ++ filename), "")]
        uncaught := true }
  | .ok r =>
      let ty := if r.success then "success" else "error"
      { calls := [.printFileReq filename]
        toasts := [(r.message, ty)]
        consoleMsgs := [(some ("Starting print: " ++ filename), ""), (r.message, ty)]
        uncaught := false }

/-- `startPrint` from `main.js`: if no file is selected, warn and return
without fetching; otherwise `await printFile(selectedFile)`. -/
def startPrint (selectedFile : Option String) (o : FetchOutcome ApiResp) : OpResult :=
  match selectedFile with
  | none =>
      { calls := []
        toasts := [(some "No file selected", "warning")]
        consoleMsgs := [(some "Cannot start print - no file selected", "warning")]
        uncaught := false }
  | some f => printFile f o

/-- `togglePlugin(pluginName, enable)` from `main.js`: try/catch around the
POST; `success` → `showAlert(result.message, 'success')` (plus a tab
reload), failure → `showAlert(result.error, 'error')`, catch → one error
toast built from the exception message. -/
def togglePlugin (pluginName : String) (enable : Bool) (o : FetchOutcome ApiResp) :
    OpResult :=
  let action := if enable then "enable" else "disable"
  match o with
  | .netError e =>
      { calls := [.pluginAction pluginName action]
        toasts := [(some ("Error " ++ (if enable then "enabling" else "disabling")
                    ++ " plugin: " ++ e), "error")]
        consoleMsgs := []
        uncaught := false }
  | .ok r =>
      if r.success then
        { calls := [.pluginAction pluginName action]
          toasts := [(r.message, "success")]
          consoleMsgs := []
          uncaught := false }
      else
        { calls := [.pluginAction pluginName action]
          toasts := [(r.error, "error")]
          consoleMsgs := []
          uncaught := false }

/-- JSON body of the relay endpoints: `httpOk` models `response.ok` (the
handler throws when it is false), and `state` is the relay state returned
by the server. -/
structure ToggleResp where
  httpOk : Bool
  success : Bool
  message : Option String
  state : Bool
deriving DecidableEq

/-- Effects of one `toggleRelay` invocation, including the value of the
`relayToggling` guard after the call returns and the
`updateRelayButtonState` calls performed. -/
structure ToggleResult where
  toggling : Bool
  calls : List ApiCall
  toasts : List (Option String × String)
  buttonUpdates : List (String × Bool)
  uncaught : Bool
deriving DecidableEq

/-- `toggleRelay(relayId)` from the relay-controller script: guarded by
`relayToggling`; try/catch/finally around the GET; `!response.ok` throws
into the catch; catch shows the one generic network toast; `finally`
clears the guard. -/
def toggleRelay (relayId : String) (relayToggling : Bool)
    (o : FetchOutcome ToggleResp) : ToggleResult :=
  if relayToggling then
    { toggling := relayToggling, calls := [], toasts := [], buttonUpdates := []
      uncaught := false }
  else
    match o with
    | .netError _ =>
        { toggling := false
          calls := [.toggleRelayReq relayId]
          toasts := [(some "Network error - please try again", "error")]
          buttonUpdates := []
          uncaught := false }
    | .ok r =>
        if !r.httpOk then
          { toggling := false
            calls := [.toggleRelayReq relayId]
            toasts := [(some "Network error - please try again", "error")]
            buttonUpdates := []
            uncaught := false }
        else if r.success then
          { toggling := false
            calls := [.toggleRelayReq relayId]
            toasts := [(r.message, "success")]
            buttonUpdates := [(relayId, r.state)]
            uncaught := false }
        else
          { toggling := false
            calls := [.toggleRelayReq relayId]
            toasts := [(jsOr r.message (some "Failed to toggle relay"), "error")]
            buttonUpdates := []
            uncaught := false }

/-- Effects of one `setRelayState` invocation (it returns a boolean). -/
structure SetRelayResult where
  calls : List ApiCall
  toasts : List (Option String × String)
  buttonUpdates : List (String × Bool)
  retVal : Bool
  uncaught : Bool
deriving DecidableEq

/-- `setRelayState(relayId, state)` from the relay-controller script:
try/catch around the GET; on `success` it updates the button and returns
true; on `success: false` it only `console.error`s and returns false; the
catch also only logs.  It never calls `showAlert`. -/
def setRelayState (relayId : String) (state : Bool)
    (o : FetchOutcome ToggleResp) : SetRelayResult :=
  match o with
  | .netError _ =>
      { calls := [.setRelayReq relayId state], toasts := [], buttonUpdates := []
        retVal := false, uncaught := false }
  | .ok r =>
      if !r.httpOk then
        { calls := [.setRelayReq relayId state], toasts := [], buttonUpdates := []
          retVal := false, uncaught := false }
      else if r.success then
        { calls := [.setRelayReq relayId state], toasts := []
          buttonUpdates := [(relayId, r.state)], retVal := true, uncaught := false }
      else
        { calls := [.setRelayReq relayId state], toasts := [], buttonUpdates := []
          retVal := false, uncaught := false }

/-!  Event-loop model for the `relayToggling` guard.  `invoke` is the
synchronous prefix of `toggleRelay` (guard test, set `relayToggling`,
issue the request); `response` is the resumption after the awaited fetch
settles (handle the outcome, `finally` clear the guard).  The state is
`(relayToggling, requests issued so far, responses handled so far)`. -/
inductive RelayEvent where
  | invoke (relayId : String)
  | response (relayId : String) (o : FetchOutcome ToggleResp)

/-- One event-loop step of the relay toggle client. -/
def relayStep : (Bool × Nat × Nat) → RelayEvent → (Bool × Nat × Nat)
  | (t, iss, comp), .invoke _ => if t then (t, iss, comp) else (true, iss + 1, comp)
  | (t, iss, comp), .response _ _ => if t then (false, iss, comp + 1) else (t, iss, comp)

/-- Run a sequence of relay events from the initial state
(`relayToggling = false`, nothing issued or handled). -/
def relayTrace (evs : List RelayEvent) : Bool × Nat × Nat :=
  evs.foldl relayStep (false, 0, 0)

/-- One line of the dashboard console. -/
structure ConsoleLine where
  text : String
  type : String
deriving DecidableEq

/-- `addConsoleMessage(message, type)` from `main.js`: push the
timestamped line, then `if (consoleLines.length > 50) consoleLines.shift()`.
The bound 50 is hard-coded; the function reads no configuration (in
particular not the `console_max_lines` setting offered in the settings
form). -/
def addConsoleMessage (timestamp message ty : String) (consoleLines : List ConsoleLine) :
    List ConsoleLine :=
  let line := "[" ++ timestamp ++ "] " ++ message
  let ls := consoleLines ++ [{ text := line, type := ty }]
  if 50 < ls.length then ls.tail else ls

/-! ## Configuration modal (`configData`, save / cancel / reset) -/

/-- A JSON value written into `configData` by the `onchange` handlers of the
settings form (string, number, checkbox boolean, or extension list). -/
inductive JsVal where
  | s (v : String)
  | n (v : ℚ)
  | b (v : Bool)
  | arr (v : List String)
deriving DecidableEq

/-- One section slot of `configData`: plain sections map key → value, while
`configData.plugins` maps plugin name → (key → value). -/
inductive SectionData where
  | flat (entries : List (String × JsVal))
  | nested (entries : List (String × List (String × JsVal)))
deriving DecidableEq

/-- The pending-edits object `configData`, as an insertion-ordered record. -/
abbrev ConfigData := List (String × SectionData)

/-- JS `obj[k] = v` on an insertion-ordered object: overwrite in place, or
append a new slot. -/
def setAssoc {α : Type} (k : String) (v : α) : List (String × α) → List (String × α)
  | [] => [(k, v)]
  | (k', v') :: rest => if k' = k then (k', v) :: rest else (k', v') :: setAssoc k v rest

/-- JS `obj[k]` lookup. -/
def findAssoc {α : Type} (k : String) : List (String × α) → Option α
  | [] => none
  | (k', v) :: rest => if k' = k then some v else findAssoc k rest

/-- `updateConfigValue(section, key, value)` from `main.js`:
`if (!configData[section]) configData[section] = {}; configData[section][key] = value`.
The `onchange` handlers only ever call it with plain sections, so an
existing `nested` slot (which cannot occur) is left unchanged. -/
def updateConfigValue (sec key : String) (value : JsVal) (cd : ConfigData) :
    ConfigData :=
  match findAssoc sec cd with
  | none => cd ++ [(sec, .flat [(key, value)])]
  | some (.flat kv) => setAssoc sec (.flat (setAssoc key value kv)) cd
  | some (.nested _) => cd

/-- `updatePluginConfigValue(pluginName, key, value)` from `main.js`:
ensure `configData.plugins` and `configData.plugins[pluginName]` exist,
then set the key. -/
def updatePluginConfigValue (pluginName key : String) (value : JsVal)
    (cd : ConfigData) : ConfigData :=
  match findAssoc "plugins" cd with
  | none => cd ++ [("plugins", .nested [(pluginName, [(key, value)])])]
  | some (.nested pl) =>
      let pcfg := (findAssoc pluginName pl).getD []
      setAssoc "plugins" (.nested (setAssoc pluginName (setAssoc key value pcfg) pl)) cd
  | some (.flat _) => cd

/-- The POST requests `saveConfig` issues. -/
inductive Request where
  | postApp (sec key : String) (value : JsVal)
  | postPlugin (pluginName : String) (cfg : List (String × JsVal))
deriving DecidableEq

/-- The app-config loop of `saveConfig`: one POST to `/api/config/app` per
(section, key, value), skipping the `plugins` section. -/
def appRequests : ConfigData → List Request
  | [] => []
  | (sec, sd) :: rest =>
    if sec = "plugins" then appRequests rest
    else
      (match sd with
       | .flat kv => kv.map (fun e => Request.postApp sec e.1 e.2)
       | .nested _ => []) ++ appRequests rest

/-- The plugin-config block of `saveConfig`: `if (configData.plugins)`, one
POST to `/api/config/plugins/<name>` per plugin entry. -/
def pluginRequests (cd : ConfigData) : List Request :=
  match findAssoc "plugins" cd with
  | some (.nested pl) => pl.map (fun e => Request.postPlugin e.1 e.2)
  | _ => []

/-- Client state around the settings modal: whether the modal has the
`active` class, and the pending-edits object. -/
structure ConfigState where
  modalActive : Bool
  configData : ConfigData
deriving DecidableEq

/-- `closeConfigModal` from `main.js`: it only removes the modal's
`active` class. -/
def closeConfigModal (st : ConfigState) : ConfigState :=
  { st with modalActive := false }

/-- Outcome of awaiting `Promise.all` over the save POSTs. -/
inductive BatchOutcome where
  | allResolved
  | failed (msg : String)
deriving DecidableEq

/-- Result of a `saveConfig` call. -/
structure SaveResult where
  state : ConfigState
  requests : List Request
  toasts : List (Option String × String)
deriving DecidableEq

/-- `saveConfig` from `main.js`: issue every pending POST, await them all;
on success toast, clear `configData` and close the modal; the catch shows
an error toast and leaves everything as it was. -/
def saveConfig (st : ConfigState) (o : BatchOutcome) : SaveResult :=
  let reqs := appRequests st.configData ++ pluginRequests st.configData
  match o with
  | .allResolved =>
      { state := { modalActive := false, configData := [] }
        requests := reqs
        toasts := [(some "Configuration saved successfully", "success")] }
  | .failed msg =>
      { state := st
        requests := reqs
        toasts := [(some ("Error saving configuration: " ++ msg), "error")] }

/-- Result of a `resetConfig` call. -/
structure ResetResult where
  state : ConfigState
  calls : List ApiCall
  toasts : List (Option String × String)
deriving DecidableEq

/-- `resetConfig` from `main.js`: behind a `confirm()`; POST to
`/api/config/reset`; on `success` toast and `configData = {}` (the modal
stays open and the tab reloads); on `success: false` or a network error
only a toast. -/
def resetConfig (confirmed : Bool) (o : FetchOutcome ApiResp) (st : ConfigState) :
    ResetResult :=
  if !confirmed then { state := st, calls := [], toasts := [] }
  else
    match o with
    | .netError e =>
        { state := st, calls := [.pluginAction "config" "reset"]
          toasts := [(some ("Error resetting configuration: " ++ e), "error")] }
    | .ok r =>
        if r.success then
          { state := { st with configData := [] }
            calls := [.pluginAction "config" "reset"]
            toasts := [(some "Configuration reset to defaults", "success")] }
        else
          { state := st, calls := [.pluginAction "config" "reset"]
            toasts := [(some "Failed to reset configuration", "error")] }

/-- Well-formedness of `configData` as the real handlers build it: the
`plugins` slot is nested, all other slots are flat, and section names are
not duplicated. -/
def wfConfig : ConfigData → Bool
  | [] => true
  | (s, sd) :: rest =>
    (if s = "plugins" then (match sd with | .nested _ => true | .flat _ => false)
     else (match sd with | .flat _ => true | .nested _ => false))
    && rest.all (fun e => !(e.1 == s))
    && wfConfig rest

/-- Total number of pending edits: one per (section, key) pair in plain
sections plus one per plugin in `configData.plugins`. -/
def entryCount : ConfigData → Nat
  | [] => 0
  | (s, sd) :: rest =>
    (if s = "plugins" then (match sd with | .nested pl => pl.length | .flat _ => 0)
     else (match sd with | .flat kv => kv.length | .nested _ => 0))
    + entryCount rest

/-! ## Relay button rendering (`updateRelayButtonState`)

`main.js` rewrites the button's class string with
`className.replace(/relay-(on|off)/g, '').trim() + ` then the new
`relay-on` / `relay-off` token, and sets three inline styles from the
boolean state.  The regex replace is embedded as `stripRelay`, a
left-to-right scan that removes each non-overlapping occurrence of
`relay-on` / `relay-off` (trying the `on` alternative first, exactly as
the alternation does), and `trim` as whitespace removal at both ends. -/

/-- The characters of `"relay-on"`. -/
def relayOnTok : List Char := ['r', 'e', 'l', 'a', 'y', '-', 'o', 'n']

/-- The characters of `"relay-off"`. -/
def relayOffTok : List Char := ['r', 'e', 'l', 'a', 'y', '-', 'o', 'f', 'f']

/-- Does `pat` occur at the head of `l`? -/
def leadMatch : List Char → List Char → Bool
  | [], _ => true
  | _ :: _, [] => false
  | p :: ps, c :: cs => p == c && leadMatch ps cs

/-- `s.replace(/relay-(on|off)/g, '')`: scan left to right, removing each
match (8 or 9 characters) and continuing after it. -/
def stripRelay : List Char → List Char
  | [] => []
  | c :: cs =>
    if leadMatch relayOnTok (c :: cs) then stripRelay (List.drop 8 (c :: cs))
    else if leadMatch relayOffTok (c :: cs) then stripRelay (List.drop 9 (c :: cs))
    else c :: stripRelay cs
termination_by l => l.length
decreasing_by
  all_goals simp [List.length_drop]
  all_goals omega

/-- Trailing-whitespace removal (the right half of `String.prototype.trim`). -/
def trimEnd : List Char → List Char
  | [] => []
  | c :: cs =>
    match trimEnd cs with
    | [] => if c.isWhitespace then [] else [c]
    | r => c :: r

/-- `String.prototype.trim`: whitespace removed at both ends. -/
def trimChars (l : List Char) : List Char :=
  trimEnd (l.dropWhile Char.isWhitespace)

/-- `relay-on` / `relay-off` occurs at no position of `l`. -/
def noTok : List Char → Bool
  | [] => true
  | c :: cs =>
    !leadMatch relayOnTok (c :: cs) && !leadMatch relayOffTok (c :: cs) && noTok cs

/-- Rendered state of a relay toolbar button: its class string and the
three inline styles `updateRelayButtonState` writes. -/
structure RelayButton where
  className : List Char
  iconColor : String
  background : String
  borderColor : String
deriving DecidableEq

/-- `updateRelayButtonState(relayId, state)` from the relay-controller
script, acting on the button found for `relayId`. -/
def updateRelayButtonState (relayId : String) (state : Bool) (b : RelayButton) :
    RelayButton :=
  { className := trimChars (stripRelay b.className)
      ++ ' ' :: (if state then relayOnTok else relayOffTok)
    iconColor := if state then "#28a745" else "#c7c7c7"
    background := if state then "#2d5a31" else "#3a3a3a"
    borderColor := if state then "#28a745" else "#555" }

/-! ## Status polling and the printing overlay (`updateStatus`)

JS float arithmetic is modelled on exact rationals; `toFixed(d)` is
modelled as rounding to `d` decimal places (the displayed value is kept as
the rounded rational), `Math.round` as round-half-up, `Math.floor` as the
integer floor. -/

/-- `Math.round`. -/
def jsRound (q : ℚ) : ℤ := Int.floor (q + 1/2)

/-- The value displayed by `x.toFixed(d)`: `x` rounded to `d` decimals. -/
def roundTo (d : Nat) (q : ℚ) : ℚ := (jsRound (q * (10 : ℚ) ^ d) : ℚ) / (10 : ℚ) ^ d

/-- JS string truthiness on a possibly-missing string. -/
def truthyStr (o : Option String) : Option String :=
  match o with
  | some s => if s = "" then none else some s
  | none => none

/-- `print_status` part of the `/api/status` payload. -/
structure PrintStatusRec where
  state : String
  progress_percent : ℚ
  total_bytes : ℚ
deriving DecidableEq

/-- The `/api/status` payload fields `updateStatus` reads. -/
structure StatusPayload where
  connected : Bool
  print_status : PrintStatusRec
  z_position : ℚ
  selected_file : Option String
deriving DecidableEq

/-- The DOM fields the status poller writes.  Times are in milliseconds. -/
structure StatusDom where
  connText : String
  connClass : String
  printText : String
  printClass : String
  progressShown : ℚ
  progressBarWidth : ℚ
  zShown : ℚ
  connectBtnDisabled : Bool
  disconnectBtnDisabled : Bool
  startBtnDisabled : Bool
  pauseBtnDisabled : Bool
  resumeBtnDisabled : Bool
  stopBtnDisabled : Bool
  overlayActive : Bool
  printStartTime : Option ℚ
  overlayFileName : String
  overlayLayerCur : ℤ
  overlayLayerTotal : ℤ
  overlayProgressShown : ℚ
  overlayZ : ℚ
  overlayTimeLeft : String
  overlayBytesShown : ℚ
deriving DecidableEq

/-- `formatTime(seconds)` from `main.js`. -/
def formatTime (seconds : ℚ) : String :=
  let hours : ℤ := Int.floor (seconds / 3600)
  let minutes : ℤ := Int.floor ((seconds - 3600 * (Int.floor (seconds / 3600) : ℚ)) / 60)
  if hours > 0 then s!"{hours}h {minutes}m" else s!"{minutes}m"

/-- `showPrintingView(status)` from `main.js`: add `active` if missing and,
in that case, start the print clock when the state is `PRINTING` and no
clock runs. -/
def showPrintingView (st : StatusPayload) (now : ℚ) (d : StatusDom) : StatusDom :=
  if d.overlayActive then d
  else
    { d with
      overlayActive := true
      printStartTime :=
        if st.print_status.state = "PRINTING" ∧ d.printStartTime = none then some now
        else d.printStartTime }

/-- `hidePrintingView` from `main.js`. -/
def hidePrintingView (d : StatusDom) : StatusDom :=
  { d with overlayActive := false, printStartTime := none }

/-- `updateButtons(status)` from `main.js`. -/
def updateButtons (st : StatusPayload) (selectedFile : Option String) (d : StatusDom) :
    StatusDom :=
  let connected := st.connected
  let printing := st.print_status.state == "PRINTING"
  let paused := st.print_status.state == "PAUSED"
  { d with
    connectBtnDisabled := connected
    disconnectBtnDisabled := !connected
    startBtnDisabled := !connected || printing || paused || (truthyStr selectedFile).isNone
    pauseBtnDisabled := !connected || !printing
    resumeBtnDisabled := !connected || !paused
    stopBtnDisabled := !connected || (!printing && !paused) }

/-- `updatePrintingOverlay(status)` from `main.js`: a no-op unless the
overlay is active; otherwise rewrite the overlay's fields. -/
def updatePrintingOverlay (st : StatusPayload) (selectedFile : Option String)
    (now : ℚ) (d : StatusDom) : StatusDom :=
  if !d.overlayActive then d
  else
    let progress := st.print_status.progress_percent
    let estimatedLayers : ℤ := max 1 (jsRound (st.print_status.total_bytes / 10000))
    let d' :=
      { d with
        overlayFileName :=
          ((truthyStr st.selected_file).orElse
            (fun _ => truthyStr selectedFile)).getD "Unknown File"
        overlayLayerCur := jsRound ((progress / 100) * (estimatedLayers : ℚ))
        overlayLayerTotal := estimatedLayers
        overlayProgressShown := roundTo 0 progress
        overlayZ := roundTo 2 st.z_position
        overlayBytesShown := roundTo 0 progress }
    match d.printStartTime with
    | some t =>
        if progress > 1 then
          let elapsed := (now - t) / 1000
          let totalEstimated := (elapsed / progress) * 100
          let remaining := max 0 (totalEstimated - elapsed)
          { d' with overlayTimeLeft := formatTime remaining }
        else { d' with overlayTimeLeft := "--" }
    | none => { d' with overlayTimeLeft := "--" }

/-- `updateStatus` from `main.js` applied to one settled `/api/status`
fetch: on a network error only `console.error` runs (the DOM is untouched);
on a payload the connection fields, print-state fields, progress, Z
position, buttons and overlay are written in the source's order. -/
def updateStatus (o : FetchOutcome StatusPayload) (selectedFile : Option String)
    (now : ℚ) (d : StatusDom) : StatusDom :=
  match o with
  | .netError _ => d
  | .ok st =>
    let d1 :=
      { d with
        connText := if st.connected then "Connected" else "Disconnected"
        connClass := if st.connected then "status-value status-connected"
                     else "status-value status-disconnected"
        printText := st.print_status.state }
    let d2 :=
      if st.print_status.state = "PRINTING" then
        showPrintingView st now { d1 with printClass := "status-value status-printing" }
      else if st.print_status.state = "PAUSED" then
        showPrintingView st now { d1 with printClass := "status-value status-warning" }
      else
        let d1' := { d1 with printClass := "status-value" }
        if st.print_status.state = "IDLE" then hidePrintingView d1' else d1'
    let d3 :=
      { d2 with
        progressShown := roundTo 1 st.print_status.progress_percent
        progressBarWidth := st.print_status.progress_percent
        zShown := roundTo 2 st.z_position }
    let d4 := updateButtons st selectedFile d3
    updatePrintingOverlay st selectedFile now d4

/-- Apply a sequence of settled status responses (each a payload together
with the `selectedFile` and clock value current when it arrived) in
arrival order.  This is the event-loop behaviour of the poller: nothing is
cancelled, every response that arrives is applied. -/
def applyResponses (d : StatusDom)
    (rs : List (StatusPayload × Option String × ℚ)) : StatusDom :=
  rs.foldl (fun acc r => updateStatus (.ok r.1) r.2.1 r.2.2 acc) d

/-- The DOM fields a status response writes unconditionally (connection,
print state, progress, Z position, button enablement). -/
def statusFields (d : StatusDom) :
    String × String × String × String × ℚ × ℚ × ℚ × Bool × Bool × Bool × Bool × Bool × Bool :=
  (d.connText, d.connClass, d.printText, d.printClass, d.progressShown,
   d.progressBarWidth, d.zShown, d.connectBtnDisabled, d.disconnectBtnDisabled,
   d.startBtnDisabled, d.pauseBtnDisabled, d.resumeBtnDisabled, d.stopBtnDisabled)

/-! ## Theorems -/

/-- Auxiliary invariant of the relay event loop: the number of issued
toggle requests equals the number of handled responses plus one exactly
when a toggle is in flight. -/
theorem relayTrace_invariant_aux (evs : List RelayEvent) (s : Bool × Nat × Nat)
    (h : s.2.1 = s.2.2 + (if s.1 then 1 else 0)) :
    (evs.foldl relayStep s).2.1 =
      (evs.foldl relayStep s).2.2 + (if (evs.foldl relayStep s).1 then 1 else 0) := by
  induction evs generalizing s with
  | nil => simpa using h
  | cons e rest ih =>
      apply ih
      obtain ⟨t, iss, comp⟩ := s
      cases e <;> cases t <;> simp_all [relayStep]

/-- Claim C9: `toggleRelay` is re-entrancy guarded.  While a toggle is in
flight any further call is a pure no-op (no request, no toast, no button
change, guard untouched); every completed call (any outcome) leaves
`relayToggling` false; and along any event sequence the number of
in-flight toggle requests is `1` when the guard is set, `0` otherwise —
never more than one. -/
theorem toggleRelay_reentrancy_guard :
    (∀ (rid : String) (o : FetchOutcome ToggleResp),
        toggleRelay rid true o =
          { toggling := true, calls := [], toasts := [], buttonUpdates := []
            uncaught := false })
    ∧ (∀ (rid : String) (o : FetchOutcome ToggleResp),
        (toggleRelay rid false o).toggling = false)
    ∧ (∀ evs : List RelayEvent,
        (relayTrace evs).2.1 =
          (relayTrace evs).2.2 + (if (relayTrace evs).1 then 1 else 0)
        ∧ (relayTrace evs).2.1 - (relayTrace evs).2.2 ≤ 1) := by
  refine ⟨fun rid o => rfl, fun rid o => ?_, fun evs => ?_⟩
  · cases o with
    | netError e => rfl
    | ok r =>
        simp only [toggleRelay, Bool.false_eq_true, if_false]
        split
        · rfl
        · split <;> rfl
  · have h := relayTrace_invariant_aux evs (false, 0, 0) (by simp)
    simp only [relayTrace]
    refine ⟨h, ?_⟩
    rw [h]
    split <;> omega

/-- Claim C10: with no file selected, `startPrint` issues no request and
shows the single `No file selected` warning toast; with a selected file it
delegates exactly to `printFile` on that name. -/
theorem startPrint_guard_and_delegation :
    (∀ o : FetchOutcome ApiResp,
        startPrint none o =
          { calls := []
            toasts := [(some "No file selected", "warning")]
            consoleMsgs := [(some "Cannot start print - no file selected", "warning")]
            uncaught := false })
    ∧ (∀ (f : String) (o : FetchOutcome ApiResp), startPrint (some f) o = printFile f o) :=
  ⟨fun _ => rfl, fun _ _ => rfl⟩

/-- One `addConsoleMessage` call keeps the console at 50 lines or fewer. -/
theorem addConsoleMessage_length_le (ts m ty : String) (lines : List ConsoleLine)
    (h : lines.length ≤ 50) : (addConsoleMessage ts m ty lines).length ≤ 50 := by
  simp only [addConsoleMessage]
  split <;> simp_all [List.length_tail, List.length_append]

/-- Any sequence of `addConsoleMessage` calls from a console within the
bound stays within the bound. -/
theorem consoleLines_fold_length_le (calls : List (String × String × String))
    (init : List ConsoleLine) (h : init.length ≤ 50) :
    (calls.foldl (fun acc c => addConsoleMessage c.1 c.2.1 c.2.2 acc) init).length ≤ 50 := by
  induction calls generalizing init with
  | nil => simpa using h
  | cons c rest ih => exact ih _ (addConsoleMessage_length_le _ _ _ _ h)

/-- Claim C8: the console buffer is bounded by the hard-coded 50 (the
`console_max_lines` setting is never read by `addConsoleMessage`): every
call from a state within the bound stays within the bound, any call
sequence from the initial empty console stays within the bound, and at the
bound the oldest line is the one removed. -/
theorem console_buffer_bounded (lines : List ConsoleLine) (ts m ty : String)
    (calls : List (String × String × String))
    (hle : lines.length ≤ 50) (heq : lines.length = 50) :
    (addConsoleMessage ts m ty lines).length ≤ 50
    ∧ (calls.foldl (fun acc c => addConsoleMessage c.1 c.2.1 c.2.2 acc) []).length ≤ 50
    ∧ addConsoleMessage ts m ty lines =
        lines.tail ++ [{ text := "[" ++ ts ++ "] " ++ m, type := ty }] := by
  refine ⟨addConsoleMessage_length_le ts m ty lines hle,
          consoleLines_fold_length_le calls [] (by simp), ?_⟩
  simp only [addConsoleMessage]
  rw [if_pos (by simp [heq])]
  cases lines with
  | nil => simp at heq
  | cons a rest => simp

/-- Witness for `console_buffer_bounded` at a full 50-line console. -/
theorem console_buffer_bounded_witness :
    (List.replicate 50 ({ text := "x", type := "" } : ConsoleLine)).length ≤ 50
    ∧ (List.replicate 50 ({ text := "x", type := "" } : ConsoleLine)).length = 50
    ∧ ((addConsoleMessage "t" "hello" "info"
          (List.replicate 50 { text := "x", type := "" })).length ≤ 50
      ∧ (([("t", "a", ""), ("t", "b", "")] :
            List (String × String × String)).foldl
            (fun acc c => addConsoleMessage c.1 c.2.1 c.2.2 acc) []).length ≤ 50
      ∧ addConsoleMessage "t" "hello" "info"
            (List.replicate 50 { text := "x", type := "" }) =
          (List.replicate 50 ({ text := "x", type := "" } : ConsoleLine)).tail
            ++ [{ text := "[t] hello", type := "info" }]) :=
  ⟨by simp, by simp,
   console_buffer_bounded (List.replicate 50 { text := "x", type := "" }) "t" "hello"
     "info" [("t", "a", ""), ("t", "b", "")] (by simp) (by simp)⟩

/-- Claim C1, counterexample: `connectPrinter` (cited by the claim) has no
try/catch, so on a network error the rejection escapes the handler
uncaught and no toast at all is shown — not "never uncaught, exactly one
toast". -/
theorem connectPrinter_netError_cex :
    ¬ ((connectPrinter (.netError "Failed to fetch")).uncaught = false
       ∧ (connectPrinter (.netError "Failed to fetch")).toasts.length = 1) := by
  decide

/-- Claim C1, amended: only the handlers that wrap their fetch in
try/catch behave as claimed — `toggleRelay` on a network error swallows
the exception and shows exactly one toast — while the bare printer-action
handlers (`connectPrinter`, `pausePrint`, `printFile`, ...) let the
rejection propagate uncaught and show no toast. -/
theorem fetch_failure_handling_amended :
    (∀ (rid e : String),
        (toggleRelay rid false (.netError e)).uncaught = false
        ∧ (toggleRelay rid false (.netError e)).toasts =
            [(some "Network error - please try again", "error")])
    ∧ (∀ e : String,
        (connectPrinter (.netError e)).uncaught = true
        ∧ (connectPrinter (.netError e)).toasts = [])
    ∧ (∀ e : String,
        (pausePrint (.netError e)).uncaught = true
        ∧ (pausePrint (.netError e)).toasts = []) :=
  ⟨fun _ _ => ⟨rfl, rfl⟩, fun _ => ⟨rfl, rfl⟩, fun _ => ⟨rfl, rfl⟩⟩

/-- Claim C5, counterexample: `setRelayState` (cited by the claim), given
an application-level failure carrying the server string `"relay jammed"`,
shows no toast at all — the string is only logged, never surfaced. -/
theorem setRelayState_failure_cex :
    (setRelayState "relay_1" true
        (.ok { httpOk := true, success := false, message := some "relay jammed"
               state := false })).toasts = [] := by
  decide

/-- Claim C5, amended: `toggleRelay` and `togglePlugin` do surface the
server-provided failure string verbatim as an error toast, but
`setRelayState` only logs the failure and returns `false` — it shows no
toast. -/
theorem app_failure_toast_amended (rid pname m err : String) (en st : Bool)
    (hm : m ≠ "") :
    (toggleRelay rid false
        (.ok { httpOk := true, success := false, message := some m, state := st })).toasts
      = [(some m, "error")]
    ∧ (togglePlugin pname en
        (.ok { success := false, message := none, error := some err })).toasts
      = [(some err, "error")]
    ∧ (setRelayState rid st
        (.ok { httpOk := true, success := false, message := some m, state := st })).toasts
      = [] := by
  refine ⟨?_, rfl, rfl⟩
  simp [toggleRelay, jsOr, hm]

/-- Witness for `app_failure_toast_amended` at concrete inputs. -/
theorem app_failure_toast_amended_witness :
    (toggleRelay "relay_1" false
        (.ok { httpOk := true, success := false, message := some "boom", state := true })).toasts
      = [(some "boom", "error")]
    ∧ (togglePlugin "relay_controller" true
        (.ok { success := false, message := none, error := some "nope" })).toasts
      = [(some "nope", "error")]
    ∧ (setRelayState "relay_1" true
        (.ok { httpOk := true, success := false, message := some "boom", state := true })).toasts
      = [] :=
  app_failure_toast_amended "relay_1" "relay_controller" "boom" "nope" true true
    (by decide)

/-- Claim C2, counterexample: after one accumulated edit, Cancel
(`closeConfigModal`) leaves the pending-edits map non-empty, and a
subsequent Save still sends that edit to the backend. -/
theorem closeConfigModal_keeps_edits_cex :
    ((closeConfigModal
        { modalActive := true
          configData := updateConfigValue "interface" "theme" (.s "dark") [] }).configData
      ≠ [])
    ∧ (saveConfig
        (closeConfigModal
          { modalActive := true
            configData := updateConfigValue "interface" "theme" (.s "dark") [] })
        .allResolved).requests
      = [Request.postApp "interface" "theme" (.s "dark")] := by
  constructor
  · decide
  · decide

/-- Claim C2, amended: Reset (confirmed, with the server reporting
success) discards the accumulated edits entirely, but Cancel
(`closeConfigModal`) only closes the modal: it leaves the pending-edits
map untouched, so a subsequent Save sends exactly what it would have sent
before the Cancel. -/
theorem config_cancel_reset_amended :
    (∀ st : ConfigState,
        (closeConfigModal st).configData = st.configData
        ∧ (closeConfigModal st).modalActive = false)
    ∧ (∀ (st : ConfigState) (m e : Option String),
        (resetConfig true (.ok { success := true, message := m, error := e }) st).state.configData
          = [])
    ∧ (∀ st : ConfigState,
        (saveConfig (closeConfigModal st) .allResolved).requests
          = (saveConfig st .allResolved).requests) :=
  ⟨fun _ => ⟨rfl, rfl⟩, fun _ _ _ => rfl, fun _ => rfl⟩

/-- `showPrintingView` always leaves the overlay active. -/
theorem showPrintingView_overlayActive (st : StatusPayload) (now : ℚ) (d : StatusDom) :
    (showPrintingView st now d).overlayActive = true := by
  unfold showPrintingView
  split <;> simp_all

/-- `updateButtons` does not touch the overlay. -/
theorem updateButtons_overlayActive (st : StatusPayload) (sel : Option String)
    (d : StatusDom) : (updateButtons st sel d).overlayActive = d.overlayActive := rfl

/-- `updatePrintingOverlay` does not touch the `active` class. -/
theorem updatePrintingOverlay_overlayActive (st : StatusPayload) (sel : Option String)
    (now : ℚ) (d : StatusDom) :
    (updatePrintingOverlay st sel now d).overlayActive = d.overlayActive := by
  unfold updatePrintingOverlay
  split
  · rfl
  · cases d.printStartTime <;> simp <;> split <;> rfl

/-- Claim C4: a payload with state `PRINTING` leaves the printing overlay
visible (it has the `active` class), a payload with state `IDLE` leaves it
hidden. -/
theorem updateStatus_overlay_visibility (st : StatusPayload) (sel : Option String)
    (now : ℚ) (d : StatusDom) :
    (st.print_status.state = "PRINTING" →
        (updateStatus (.ok st) sel now d).overlayActive = true)
    ∧ (st.print_status.state = "IDLE" →
        (updateStatus (.ok st) sel now d).overlayActive = false) := by
  constructor <;> intro h <;>
    simp [updateStatus, h, updatePrintingOverlay_overlayActive,
      updateButtons_overlayActive, showPrintingView_overlayActive, hidePrintingView]

/-- Witness for `updateStatus_overlay_visibility`: a concrete `PRINTING`
payload shows the overlay, a concrete `IDLE` payload hides it. -/
theorem updateStatus_overlay_visibility_witness :
    (updateStatus
        (.ok { connected := true
               print_status := { state := "PRINTING", progress_percent := 25, total_bytes := 40000 }
               z_position := 10, selected_file := some "model.ctb" })
        (some "model.ctb") 1000
        { connText := "", connClass := "", printText := "", printClass := ""
          progressShown := 0, progressBarWidth := 0, zShown := 0
          connectBtnDisabled := false, disconnectBtnDisabled := false
          startBtnDisabled := false, pauseBtnDisabled := false
          resumeBtnDisabled := false, stopBtnDisabled := false
          overlayActive := false, printStartTime := none, overlayFileName := ""
          overlayLayerCur := 0, overlayLayerTotal := 0, overlayProgressShown := 0
          overlayZ := 0, overlayTimeLeft := "", overlayBytesShown := 0 }).overlayActive
      = true
    ∧ (updateStatus
        (.ok { connected := true
               print_status := { state := "IDLE", progress_percent := 0, total_bytes := 0 }
               z_position := 0, selected_file := none })
        none 2000
        { connText := "", connClass := "", printText := "", printClass := ""
          progressShown := 0, progressBarWidth := 0, zShown := 0
          connectBtnDisabled := false, disconnectBtnDisabled := false
          startBtnDisabled := false, pauseBtnDisabled := false
          resumeBtnDisabled := false, stopBtnDisabled := false
          overlayActive := true, printStartTime := some 500, overlayFileName := ""
          overlayLayerCur := 0, overlayLayerTotal := 0, overlayProgressShown := 0
          overlayZ := 0, overlayTimeLeft := "", overlayBytesShown := 0 }).overlayActive
      = false :=
  ⟨(updateStatus_overlay_visibility _ _ _ _).1 rfl,
   (updateStatus_overlay_visibility _ _ _ _).2 rfl⟩

/-- `updatePrintingOverlay` writes only overlay fields: the status fields
pass through unchanged. -/
theorem statusFields_updatePrintingOverlay (st : StatusPayload) (sel : Option String)
    (now : ℚ) (d : StatusDom) :
    statusFields (updatePrintingOverlay st sel now d) = statusFields d := by
  unfold updatePrintingOverlay
  split
  · rfl
  · cases d.printStartTime <;> simp <;> (try split) <;> rfl

set_option maxHeartbeats 1000000 in
/-- The unconditionally-written status fields do not depend on the DOM the
response is applied to — only on the response itself. -/
theorem statusFields_updateStatus_indep (st : StatusPayload) (sel : Option String)
    (now : ℚ) (d d' : StatusDom) :
    statusFields (updateStatus (.ok st) sel now d)
      = statusFields (updateStatus (.ok st) sel now d') := by
  simp only [updateStatus]
  rw [statusFields_updatePrintingOverlay, statusFields_updatePrintingOverlay]
  simp only [statusFields, updateButtons, showPrintingView, hidePrintingView]
  split_ifs <;> rfl

/-- Claim C7: no response is dropped — applying a concatenation of arrival
batches equals applying them one after the other — and the status fields
are last-write-wins: whatever raced before, after the last response those
fields are exactly the ones computed from that response. -/
theorem status_poll_last_write_wins :
    (∀ (d : StatusDom) (xs ys : List (StatusPayload × Option String × ℚ)),
        applyResponses d (xs ++ ys) = applyResponses (applyResponses d xs) ys)
    ∧ (∀ (d₁ d₂ : StatusDom) (xs ys : List (StatusPayload × Option String × ℚ))
        (st : StatusPayload) (sel : Option String) (now : ℚ),
        statusFields (applyResponses d₁ (xs ++ [(st, sel, now)]))
          = statusFields (applyResponses d₂ (ys ++ [(st, sel, now)]))) := by
  constructor
  · intro d xs ys
    simp [applyResponses, List.foldl_append]
  · intro d₁ d₂ xs ys st sel now
    have hx : applyResponses d₁ (xs ++ [(st, sel, now)])
        = updateStatus (.ok st) sel now (applyResponses d₁ xs) := by
      simp [applyResponses, List.foldl_append]
    have hy : applyResponses d₂ (ys ++ [(st, sel, now)])
        = updateStatus (.ok st) sel now (applyResponses d₂ ys) := by
      simp [applyResponses, List.foldl_append]
    rw [hx, hy]
    exact statusFields_updateStatus_indep st sel now _ _

/-- `findAssoc` misses when no entry has the key. -/
theorem findAssoc_eq_none {α : Type} (k : String) (l : List (String × α))
    (h : ∀ e ∈ l, e.1 ≠ k) : findAssoc k l = none := by
  induction l with
  | nil => rfl
  | cons e rest ih =>
      obtain ⟨k', v⟩ := e
      unfold findAssoc
      rw [if_neg (h (k', v) (List.mem_cons_self _ _))]
      exact ih fun e he => h e (List.mem_cons_of_mem _ he)


/-- With duplicate-free keys, `findAssoc` finds exactly the stored value. -/
theorem findAssoc_of_wf (cd : ConfigData) (s : String) (sd : SectionData)
    (hwf : wfConfig cd = true) (hmem : (s, sd) ∈ cd) : findAssoc s cd = some sd := by
  induction cd with
  | nil => cases hmem
  | cons e rest ih =>
      obtain ⟨s', sd'⟩ := e
      simp only [wfConfig, Bool.and_eq_true, List.all_eq_true] at hwf
      obtain ⟨⟨_, hkeys⟩, hrest⟩ := hwf
      rcases List.mem_cons.mp hmem with h | h
      · rw [Prod.mk.injEq] at h
        obtain ⟨h1, h2⟩ := h
        subst h1
        subst h2
        unfold findAssoc
        rw [if_pos rfl]
      · have hne : s ≠ s' := by
          intro hss
          have := hkeys (s, sd) h
          simp [hss] at this
        unfold findAssoc
        rw [if_neg fun hc => hne hc.symm]
        exact ih hrest h

/-- If no entry is named `plugins`, `saveConfig` issues no plugin POSTs. -/
theorem pluginRequests_eq_nil (cd : ConfigData)
    (h : ∀ e ∈ cd, e.1 ≠ "plugins") : pluginRequests cd = [] := by
  unfold pluginRequests
  rw [findAssoc_eq_none _ _ h]

/-- `pluginRequests` ignores a leading non-`plugins` section. -/
theorem pluginRequests_cons_ne (s : String) (sd : SectionData) (rest : ConfigData)
    (hs : s ≠ "plugins") : pluginRequests ((s, sd) :: rest) = pluginRequests rest := by
  unfold pluginRequests
  have hfa : findAssoc "plugins" ((s, sd) :: rest) = findAssoc "plugins" rest := by
    simp only [findAssoc]
    rw [if_neg hs]
  rw [hfa]

/-- On well-formed pending edits, `saveConfig` issues exactly one request
per entry. -/
theorem save_requests_length (cd : ConfigData) (h : wfConfig cd = true) :
    (appRequests cd ++ pluginRequests cd).length = entryCount cd := by
  induction cd with
  | nil => rfl
  | cons e rest ih =>
      obtain ⟨s, sd⟩ := e
      simp only [wfConfig, Bool.and_eq_true, List.all_eq_true] at h
      obtain ⟨⟨hshape, hkeys⟩, hrest⟩ := h
      have hkeys' : ∀ e ∈ rest, e.1 ≠ s := by
        intro e he
        have := hkeys e he
        simpa using this
      by_cases hs : s = "plugins"
      · subst hs
        cases sd with
        | flat kv => simp at hshape
        | nested pl =>
            have hnp : pluginRequests rest = [] :=
              pluginRequests_eq_nil rest hkeys'
            have happ : appRequests (("plugins", SectionData.nested pl) :: rest)
                = appRequests rest := by
              simp [appRequests]
            have hplug : pluginRequests (("plugins", SectionData.nested pl) :: rest)
                = pl.map (fun e => Request.postPlugin e.1 e.2) := by
              unfold pluginRequests
              have hfa : findAssoc "plugins" (("plugins", SectionData.nested pl) :: rest)
                  = some (SectionData.nested pl) := by
                simp [findAssoc]
              rw [hfa]
            have hcount : entryCount (("plugins", SectionData.nested pl) :: rest)
                = pl.length + entryCount rest := by
              simp [entryCount]
            have hih := ih hrest
            rw [hnp] at hih
            rw [happ, hplug, hcount]
            simp only [List.length_append, List.length_map, List.length_nil] at hih ⊢
            omega
      · cases sd with
        | nested pl => simp [hs] at hshape
        | flat kv =>
            have happ : appRequests ((s, SectionData.flat kv) :: rest)
                = kv.map (fun e => Request.postApp s e.1 e.2) ++ appRequests rest := by
              simp only [appRequests]
              rw [if_neg hs]
            have hcount : entryCount ((s, SectionData.flat kv) :: rest)
                = kv.length + entryCount rest := by
              simp only [entryCount]
              rw [if_neg hs]
            have hih := ih hrest
            rw [happ, pluginRequests_cons_ne s _ rest hs, hcount]
            simp only [List.length_append, List.length_map] at hih ⊢
            omega

/-- Every pending plain-section edit yields its app-config POST. -/
theorem mem_appRequests (cd : ConfigData) (sec : String) (kv : List (String × JsVal))
    (k : String) (v : JsVal) (h1 : (sec, SectionData.flat kv) ∈ cd)
    (hs : sec ≠ "plugins") (h2 : (k, v) ∈ kv) :
    Request.postApp sec k v ∈ appRequests cd := by
  induction cd with
  | nil => cases h1
  | cons e rest ih =>
      obtain ⟨s', sd'⟩ := e
      rcases List.mem_cons.mp h1 with h | h
      · rw [Prod.mk.injEq] at h
        obtain ⟨hh1, hh2⟩ := h
        subst hh1
        subst hh2
        simp only [appRequests]
        rw [if_neg hs]
        exact List.mem_append_left _ (List.mem_map.mpr ⟨(k, v), h2, rfl⟩)
      · by_cases hsp : s' = "plugins"
        · simp only [appRequests]
          rw [if_pos hsp]
          exact ih h
        · simp only [appRequests]
          rw [if_neg hsp]
          exact List.mem_append_right _ (ih h)

/-- Claim C6: on the pending edits the real handlers build, `saveConfig`
flushes everything — one POST to `/api/config/app` per plain (section,
key, value), one POST to `/api/config/plugins/<name>` per plugin entry,
one request per entry in total — and once all requests resolve it clears
the pending-edits map and closes the modal. -/
theorem saveConfig_flushes_all (st : ConfigState) (h : wfConfig st.configData = true) :
    ((saveConfig st .allResolved).requests.length = entryCount st.configData)
    ∧ (∀ (sec : String) (kv : List (String × JsVal)),
        (sec, SectionData.flat kv) ∈ st.configData → sec ≠ "plugins" →
        ∀ (k : String) (v : JsVal), (k, v) ∈ kv →
          Request.postApp sec k v ∈ (saveConfig st .allResolved).requests)
    ∧ (∀ pl, ("plugins", SectionData.nested pl) ∈ st.configData →
        ∀ (p : String) (cfg : List (String × JsVal)), (p, cfg) ∈ pl →
          Request.postPlugin p cfg ∈ (saveConfig st .allResolved).requests)
    ∧ (saveConfig st .allResolved).state.configData = []
    ∧ (saveConfig st .allResolved).state.modalActive = false := by
  refine ⟨save_requests_length _ h, ?_, ?_, rfl, rfl⟩
  · intro sec kv hmem hs k v hkv
    exact List.mem_append_left _ (mem_appRequests _ sec kv k v hmem hs hkv)
  · intro pl hmem p cfg hpc
    have hfind := findAssoc_of_wf _ _ _ h hmem
    refine List.mem_append_right _ ?_
    unfold pluginRequests
    rw [hfind]
    exact List.mem_map.mpr ⟨(p, cfg), hpc, rfl⟩

/-- Witness for `saveConfig_flushes_all` on a concrete two-section state:
the save issues exactly one request per pending entry and clears the map. -/
theorem saveConfig_flushes_all_witness :
    ((saveConfig
        { modalActive := true
          configData :=
            [("interface", SectionData.flat [("theme", JsVal.s "dark")]),
             ("plugins", SectionData.nested
               [("relay_controller", [("enabled", JsVal.b true)])])] }
        .allResolved).requests.length
      = entryCount
          [("interface", SectionData.flat [("theme", JsVal.s "dark")]),
           ("plugins", SectionData.nested
             [("relay_controller", [("enabled", JsVal.b true)])])])
    ∧ (saveConfig
        { modalActive := true
          configData :=
            [("interface", SectionData.flat [("theme", JsVal.s "dark")]),
             ("plugins", SectionData.nested
               [("relay_controller", [("enabled", JsVal.b true)])])] }
        .allResolved).state.configData = [] :=
  ⟨(saveConfig_flushes_all
      { modalActive := true
        configData :=
          [("interface", SectionData.flat [("theme", JsVal.s "dark")]),
           ("plugins", SectionData.nested
             [("relay_controller", [("enabled", JsVal.b true)])])] }
      (by decide)).1,
   (saveConfig_flushes_all
      { modalActive := true
        configData :=
          [("interface", SectionData.flat [("theme", JsVal.s "dark")]),
           ("plugins", SectionData.nested
             [("relay_controller", [("enabled", JsVal.b true)])])] }
      (by decide)).2.2.2.1⟩

/-- A head match survives extending the scanned text on the right. -/
theorem leadMatch_extend (pat : List Char) :
    ∀ (x y : List Char), leadMatch pat x = true → leadMatch pat (x ++ y) = true := by
  induction pat with
  | nil => intro x y _; rfl
  | cons p ps ih =>
      intro x y h
      cases x with
      | nil => simp [leadMatch] at h
      | cons c cs =>
          simp only [leadMatch, Bool.and_eq_true, beq_iff_eq] at h
          simp only [List.cons_append, leadMatch, Bool.and_eq_true, beq_iff_eq]
          exact ⟨h.1, ih cs y h.2⟩

/-- A space-free pattern that matches at the head of `x ++ ' ' :: t`
already matches at the head of `x`. -/
theorem leadMatch_of_append_space (pat : List Char) (hsp : ' ' ∉ pat) :
    ∀ (x t : List Char), leadMatch pat (x ++ ' ' :: t) = true → leadMatch pat x = true := by
  induction pat with
  | nil => intro x t _; rfl
  | cons p ps ih =>
      intro x t h
      cases x with
      | nil =>
          simp only [List.nil_append, leadMatch, Bool.and_eq_true, beq_iff_eq] at h
          exact absurd (h.1 ▸ List.mem_cons_self p ps) hsp
      | cons c cs =>
          simp only [List.cons_append, leadMatch, Bool.and_eq_true, beq_iff_eq] at h
          simp only [leadMatch, Bool.and_eq_true, beq_iff_eq]
          exact ⟨h.1, ih (fun hm => hsp (List.mem_cons_of_mem _ hm)) cs t h.2⟩

/-- A token-free class string is left unchanged by the regex replace. -/
theorem stripRelay_eq_of_noTok (x : List Char) (h : noTok x = true) :
    stripRelay x = x := by
  induction x with
  | nil => simp [stripRelay]
  | cons c cs ih =>
      simp only [noTok, Bool.and_eq_true, Bool.not_eq_true'] at h
      obtain ⟨⟨h1, h2⟩, h3⟩ := h
      simp only [stripRelay, h1, h2, Bool.false_eq_true, if_false]
      rw [ih h3]

/-- Scanning a token-free prefix, a separating space and then the rest:
the replace keeps the prefix and the space and continues in the rest. -/
theorem stripRelay_append_space (x t : List Char) (h : noTok x = true) :
    stripRelay (x ++ ' ' :: t) = x ++ ' ' :: stripRelay t := by
  induction x with
  | nil =>
      simp only [List.nil_append]
      simp [stripRelay, leadMatch, relayOnTok, relayOffTok]
  | cons c cs ih =>
      simp only [noTok, Bool.and_eq_true, Bool.not_eq_true'] at h
      obtain ⟨⟨h1, h2⟩, h3⟩ := h
      have e1 : leadMatch relayOnTok ((c :: cs) ++ ' ' :: t) = false := by
        cases hh : leadMatch relayOnTok ((c :: cs) ++ ' ' :: t) with
        | false => rfl
        | true =>
            have := leadMatch_of_append_space relayOnTok (by decide) (c :: cs) t hh
            rw [h1] at this
            cases this
      have e2 : leadMatch relayOffTok ((c :: cs) ++ ' ' :: t) = false := by
        cases hh : leadMatch relayOffTok ((c :: cs) ++ ' ' :: t) with
        | false => rfl
        | true =>
            have := leadMatch_of_append_space relayOffTok (by decide) (c :: cs) t hh
            rw [h2] at this
            cases this
      rw [List.cons_append] at e1 e2 ⊢
      simp only [stripRelay, e1, e2, Bool.false_eq_true, if_false]
      rw [ih h3]
      simp

/-- The replace erases an exact `relay-on` token. -/
theorem stripRelay_relayOnTok : stripRelay relayOnTok = [] := by
  simp [stripRelay, relayOnTok, leadMatch]

/-- The replace erases an exact `relay-off` token. -/
theorem stripRelay_relayOffTok : stripRelay relayOffTok = [] := by
  simp [stripRelay, relayOffTok, relayOnTok, leadMatch]

/-- A trailing space is removed by `trimEnd`. -/
theorem trimEnd_append_space (w : List Char) : trimEnd (w ++ [' ']) = trimEnd w := by
  induction w with
  | nil => simp [trimEnd]
  | cons c cs ih =>
      rw [List.cons_append]
      simp only [trimEnd]
      rw [ih]

/-- `trimEnd` is idempotent. -/
theorem trimEnd_idem (y : List Char) : trimEnd (trimEnd y) = trimEnd y := by
  induction y with
  | nil => rfl
  | cons c cs ih =>
      cases h : trimEnd cs with
      | nil =>
          simp only [trimEnd, h]
          by_cases hw : c.isWhitespace
          · simp [trimEnd, hw]
          · simp [trimEnd, hw]
      | cons a as =>
          rw [h] at ih
          have hcc : trimEnd (c :: cs) = c :: a :: as := by
            rw [trimEnd, h]
          rw [hcc, trimEnd, ih]

/-- The first element surviving `dropWhile` falsifies the predicate. -/
theorem dropWhile_head_false (p : Char → Bool) (l : List Char) (c : Char)
    (cs : List Char) (h : l.dropWhile p = c :: cs) : p c = false := by
  induction l with
  | nil => simp [List.dropWhile] at h
  | cons a l' ih =>
      rw [List.dropWhile_cons] at h
      by_cases hp : p a
      · rw [if_pos hp] at h
        exact ih h
      · rw [if_neg hp] at h
        obtain ⟨h1, _⟩ := List.cons.injEq .. ▸ h
        rw [← h1]
        simpa using hp

/-- `trimEnd` keeps the head of its input (or empties it). -/
theorem trimEnd_head (y : List Char) :
    trimEnd y = [] ∨ List.head? (trimEnd y) = List.head? y := by
  cases y with
  | nil => exact Or.inl rfl
  | cons c cs =>
      cases h : trimEnd cs with
      | nil =>
          by_cases hw : c.isWhitespace
          · exact Or.inl (by simp [trimEnd, h, hw])
          · exact Or.inr (by simp [trimEnd, h, hw])
      | cons a as => exact Or.inr (by simp [trimEnd, h])

/-- Appending one space to an already-trimmed string and trimming again
gives the trimmed string back. -/
theorem trimChars_append_space (z : List Char) :
    trimChars (trimChars z ++ [' ']) = trimChars z := by
  unfold trimChars
  cases h : trimEnd (z.dropWhile Char.isWhitespace) with
  | nil => simp [List.dropWhile, trimEnd]
  | cons a as =>
      have hhead : a.isWhitespace = false := by
        rcases trimEnd_head (z.dropWhile Char.isWhitespace) with h' | h'
        · rw [h] at h'
          cases h'
        · rw [h] at h'
          cases hy : z.dropWhile Char.isWhitespace with
          | nil => rw [hy] at h'; simp at h'
          | cons b bs =>
              rw [hy] at h'
              simp only [List.head?_cons, Option.some.injEq] at h'
              rw [h']
              exact dropWhile_head_false _ z b bs hy
      rw [List.cons_append, List.dropWhile_cons, if_neg (by simp [hhead])]
      have hte : trimEnd ((a :: as) ++ [' ']) = trimEnd (a :: as) :=
        trimEnd_append_space _
      rw [List.cons_append] at hte
      rw [hte, ← h, trimEnd_idem, h]

/-- `noTok` passes to a left factor of an append. -/
theorem noTok_append_left (x y : List Char) (h : noTok (x ++ y) = true) :
    noTok x = true := by
  induction x with
  | nil => rfl
  | cons c cs ih =>
      rw [List.cons_append] at h
      simp only [noTok, Bool.and_eq_true, Bool.not_eq_true'] at h
      obtain ⟨⟨h1, h2⟩, h3⟩ := h
      have e1 : leadMatch relayOnTok (c :: cs) = false := by
        cases hh : leadMatch relayOnTok (c :: cs) with
        | false => rfl
        | true =>
            have := leadMatch_extend relayOnTok (c :: cs) y hh
            rw [List.cons_append] at this
            rw [h1] at this
            cases this
      have e2 : leadMatch relayOffTok (c :: cs) = false := by
        cases hh : leadMatch relayOffTok (c :: cs) with
        | false => rfl
        | true =>
            have := leadMatch_extend relayOffTok (c :: cs) y hh
            rw [List.cons_append] at this
            rw [h2] at this
            cases this
      simp only [noTok, Bool.and_eq_true, Bool.not_eq_true']
      exact ⟨⟨e1, e2⟩, ih h3⟩

/-- `noTok` passes to any `dropWhile` suffix. -/
theorem noTok_dropWhile (p : Char → Bool) (x : List Char) (h : noTok x = true) :
    noTok (x.dropWhile p) = true := by
  induction x with
  | nil => exact h
  | cons c cs ih =>
      rw [List.dropWhile_cons]
      by_cases hp : p c
      · rw [if_pos hp]
        simp only [noTok, Bool.and_eq_true, Bool.not_eq_true'] at h
        exact ih h.2
      · rw [if_neg hp]
        exact h

/-- `trimEnd` only removes a suffix. -/
theorem trimEnd_decomp (y : List Char) : ∃ r, y = trimEnd y ++ r := by
  induction y with
  | nil => exact ⟨[], rfl⟩
  | cons c cs ih =>
      obtain ⟨r, hr⟩ := ih
      cases h : trimEnd cs with
      | nil =>
          by_cases hw : c.isWhitespace
          · exact ⟨c :: cs, by simp [trimEnd, h, hw]⟩
          · exact ⟨cs, by simp [trimEnd, h, hw]⟩
      | cons a as =>
          refine ⟨r, ?_⟩
          rw [h] at hr
          simp only [trimEnd, h]
          rw [List.cons_append, ← hr]

/-- `noTok` passes through `trimChars`. -/
theorem noTok_trimChars (z : List Char) (h : noTok z = true) :
    noTok (trimChars z) = true := by
  unfold trimChars
  have h1 : noTok (z.dropWhile Char.isWhitespace) = true := noTok_dropWhile _ _ h
  obtain ⟨r, hr⟩ := trimEnd_decomp (z.dropWhile Char.isWhitespace)
  rw [hr] at h1
  exact noTok_append_left _ _ h1

/-- One render step round-trips the class string: stripping and trimming a
rendered class string (`trimmed base ++ " relay-on/off"`) recovers the
trimmed base. -/
theorem stripRelay_trim_tok (z : List Char) (hz : noTok z = true) (s : Bool) :
    trimChars (stripRelay (trimChars z ++ ' ' :: (if s then relayOnTok else relayOffTok)))
      = trimChars z := by
  have hnt : noTok (trimChars z) = true := noTok_trimChars z hz
  cases s with
  | true =>
      have hred : (if (true : Bool) then relayOnTok else relayOffTok) = relayOnTok := rfl
      rw [hred, stripRelay_append_space _ _ hnt, stripRelay_relayOnTok]
      exact trimChars_append_space z
  | false =>
      have hred : (if (false : Bool) then relayOnTok else relayOffTok) = relayOffTok := rfl
      rw [hred, stripRelay_append_space _ _ hnt, stripRelay_relayOffTok]
      exact trimChars_append_space z

/-- Claim C3: for a button whose base class string contains no
`relay-on`/`relay-off` token (true of every class string in the repo's
markup), starting from the rendered state for the server's last returned
state `s`, two toggles — the server returning `!s` and then `s` — restore
exactly the original rendered state: same class string, icon color,
background and border. -/
theorem relay_toggle_twice_restores_render (relayId : String) (s : Bool)
    (b : RelayButton) (h : noTok b.className = true) :
    updateRelayButtonState relayId s
        (updateRelayButtonState relayId (!s) (updateRelayButtonState relayId s b))
      = updateRelayButtonState relayId s b := by
  have hc := stripRelay_eq_of_noTok b.className h
  simp only [updateRelayButtonState, hc]
  rw [stripRelay_trim_tok b.className h s, stripRelay_trim_tok b.className h (!s)]

/-- Witness for `relay_toggle_twice_restores_render` on a concrete
token-free button. -/
theorem relay_toggle_twice_restores_render_witness :
    noTok ['b', 't', 'n'] = true
    ∧ updateRelayButtonState "relay_1" true
        (updateRelayButtonState "relay_1" (!true)
          (updateRelayButtonState "relay_1" true
            { className := ['b', 't', 'n'], iconColor := "", background := ""
              borderColor := "" }))
      = updateRelayButtonState "relay_1" true
          { className := ['b', 't', 'n'], iconColor := "", background := ""
            borderColor := "" } :=
  ⟨by decide,
   relay_toggle_twice_restores_render "relay_1" true
     { className := ['b', 't', 'n'], iconColor := "", background := ""
       borderColor := "" } (by decide)⟩
